import Mathlib

/-!
# Verification of the cherry session layer

Shallow embedding of the `cherrySession` package:

* `src/unnamed/part_000` — the session variant holding the connection, the
  `running` flag, the status field, the listener lists and the reader loop
  (`NewSession`, `SetStatus`, `Bind`, `OnClose`, `OnError`, `OnMessage`,
  `Send`, `readPackets`, `Closed`).
* `src/net/session/session.go` — the registry-delegating variant; from it we
  take `NextSID` (the process-wide id generator) and the accessor `IsBind`.

Go byte slices are modelled as `List Nat`, Go `int64`/`int` as `Int` (with
explicit two's-complement wrap-around where the source uses `atomic.AddInt64`),
Go `nil`-able callbacks as `Option`. Side effects (listener invocations,
channel sends, connection reads/writes/closes, registry `Remove` calls) are
recorded in an explicit event trace.
-/

namespace cherrySession

/-- Session status constants (`const Init = iota; WaitAck; Working; Closed` in
`src/unnamed/part_000`). The Go field `status` is a plain `int`. -/
def Init : Int := 0

/-- `WaitAck` status constant. -/
def WaitAck : Int := 1

/-- `Working` status constant. -/
def Working : Int := 2

/-- `Closed` status constant (the value; the close transition is the function
`Session.Closed` below, as in the Go source where the constant and the method
live in different namespaces). -/
def Closed : Int := 3

/-- `IllegalUID = cherryUtils.Error("illegal uid")`. Errors are modelled as
their message strings; a Go `nil` error is `Option.none`. -/
def IllegalUID : String := "illegal uid"

/-- Behaviour of a registered message-dispatch callback
(`cherryFacade.MessageListener`, `func([]byte) error`): the result `true`
means the callback returned a non-nil error for those bytes. -/
def MsgListener : Type := List Nat → Bool

/-- Observable side effects of session operations. `readOk`/`readErr` are the
outcomes of `conn.Read`; `dispatch` is an invocation of the message-dispatch
callback with exactly the given bytes; `errListener`/`closeListener` are
invocations of registered listeners (identified by opaque ids);
`enqueue` is a hand-off of a payload to `sendChan`; `connClose` is
`conn.Close()`; `remove` is `sessionComponent.Remove(sid)`. -/
inductive Event where
  | readOk (data : List Nat)
  | readErr
  | dispatch (data : List Nat)
  | errListener (id : Nat)
  | closeListener (id : Nat)
  | enqueue (data : List Nat)
  | connClose
  | remove (sid : Int)
  deriving DecidableEq, Repr

/-- The `Session` struct of `src/unnamed/part_000`.  Listener lists hold
Go interface values that may be `nil`, hence `List (Option Nat)` with opaque
ids standing for the (behaviourless) `func(ISession)` closures; the
message-dispatch callback carries behaviour (`MsgListener`) because
`readPackets` consults its return value.  `sessionComponent ≠ nil` is the
Boolean `hasSessionComponent`; the component itself is outside this package.
The embedded `Settings` bag is an association list with opaque values. -/
structure Session where
  status : Int
  running : Bool
  sid : Int
  uid : Int
  frontendId : String
  hasSessionComponent : Bool
  lastTime : Int
  settings : List (String × String)
  onCloseListeners : List (Option Nat)
  onErrorListeners : List (Option Nat)
  onMessageListener : Option MsgListener

/-- `NewSession` (part_000 lines 50–76): fresh session at status `Init`, not
running, uid 0, with one default (non-nil) close listener and one default
(non-nil) error listener appended (the two debug-logging closures, given
opaque id 0), and no message listener.  `now` stands for `time.Now().Unix()`. -/
def NewSession (sid : Int) (hasComponent : Bool) (now : Int) : Session :=
  { status := Init
    running := false
    sid := sid
    uid := 0
    frontendId := ""
    hasSessionComponent := hasComponent
    lastTime := now
    settings := []
    onCloseListeners := [some 0]
    onErrorListeners := [some 0]
    onMessageListener := none }

/-- `SID()` accessor. -/
def Session.SID (s : Session) : Int := s.sid

/-- `UID()` accessor. -/
def Session.UID (s : Session) : Int := s.uid

/-- `Status()` accessor. -/
def Session.Status (s : Session) : Int := s.status

/-- `SetStatus(status int)` (part_000 lines 90–92): unconditional assignment,
no guard on the current status. -/
def Session.SetStatus (s : Session) (status : Int) : Session :=
  { s with status := status }

/-- `IsBind()` from `src/net/session/session.go` lines 63–65:
`return s.uid > 0`.  (That variant's `Bind` delegates to the registry
component, whose code is not part of this package; the accessor itself only
reads the stored uid, so it is stated here on the locally-binding session.) -/
def Session.IsBind (s : Session) : Bool := decide (0 < s.uid)

/-- `Bind(uid)` (part_000 lines 102–109): reject `uid < 1` with `IllegalUID`
and leave the session untouched; otherwise store the uid
(`atomic.StoreInt64(&s.uid, uid)`) and return a nil error. -/
def Session.Bind (s : Session) (uid : Int) : Session × Option String :=
  if uid < 1 then (s, some IllegalUID)
  else ({ s with uid := uid }, none)

/-- `OnClose(listener)` (part_000 lines 115–119): append only non-nil
listeners. -/
def Session.OnClose (s : Session) (listener : Option Nat) : Session :=
  match listener with
  | none => s
  | some id => { s with onCloseListeners := s.onCloseListeners ++ [some id] }

/-- `OnError(listener)` (part_000 lines 121–125): append only non-nil
listeners. -/
def Session.OnError (s : Session) (listener : Option Nat) : Session :=
  match listener with
  | none => s
  | some id => { s with onErrorListeners := s.onErrorListeners ++ [some id] }

/-- `OnMessage(listener)` (part_000 lines 127–131): store only a non-nil
listener. -/
def Session.OnMessage (s : Session) (listener : Option MsgListener) : Session :=
  match listener with
  | none => s
  | some f => { s with onMessageListener := some f }

/-- `Send(msg)` (part_000 lines 133–140): when `running` is false, return a
nil error immediately without touching the channel; otherwise hand the
payload to `sendChan` (recorded as an `enqueue` event) and return nil.
Neither path writes to the connection or mutates session fields. -/
def Session.Send (s : Session) (msg : List Nat) :
    Session × Option String × List Event :=
  if s.running then (s, none, [Event.enqueue msg])
  else (s, none, [])

/-- `Closed()` (part_000 lines 209–216): set status to `Closed`, clear
`running`, and — unconditionally, with no already-closed guard — call
`sessionComponent.Remove(s.sid)` when the component is non-nil.  No close
listener is invoked here (those run in `readPackets`' deferred cleanup). -/
def Session.Closed (s : Session) : Session × List Event :=
  ({ s with status := cherrySession.Closed, running := false },
   if s.hasSessionComponent then [Event.remove s.sid] else [])

/-- Invoking `Closed()` `n` times in a row, concatenating the traces. -/
def closedN (s : Session) : Nat → Session × List Event
  | 0 => (s, [])
  | n + 1 =>
    let r := Session.Closed s
    let r' := closedN r.1 n
    (r'.1, r.2 ++ r'.2)

/-- One observation of the reader loop's environment per iteration: `stop`
models the `running` flag having been cleared concurrently (by `Closed()` or
by the writer loop) before the `for s.running` check; `ok data` is
`conn.Read` returning `n = data.length` bytes without error (`n = 0` is a
zero-byte read); `err` is `conn.Read` returning a non-nil error. -/
inductive ReadEvent where
  | stop
  | ok (data : List Nat)
  | err
  deriving Repr

/-- How the reader loop's `for` body exited: `blocked` means the environment
script ran out while the loop would issue another (blocking) read, so the
loop — and hence its deferred cleanup — has not terminated. -/
inductive LoopExit where
  | blocked
  | terminated
  deriving DecidableEq, Repr

/-- Outcome of `readPackets` as a whole: `panicked` (no message listener set,
aborted before any read, deferred cleanup never registered), `blocked`
(still reading), or `terminated` (returned; deferred cleanup ran). -/
inductive RPExit where
  | panicked
  | blocked
  | terminated
  deriving DecidableEq, Repr

/-- Invoking every non-nil listener of a list in registration order
(a nil entry would be a nil-pointer dereference in Go; `NewSession` and
`OnClose`/`OnError` never put one in the lists). -/
def listenerEvts (f : Nat → Event) (ls : List (Option Nat)) : List Event :=
  ls.filterMap fun o => o.map f

/-- The `for s.running { ... }` body of `readPackets` (part_000 lines
185–206), driven by the environment script.  On a read error: invoke all
error listeners in order, clear `running`, return.  On a zero-byte read
(`n < 1`): `continue`.  Otherwise invoke the message-dispatch callback with
exactly the bytes read; a non-nil callback error returns from the loop
(without clearing `running`, as in the source). -/
def readLoop (cb : MsgListener) : Session → List ReadEvent →
    Session × List Event × LoopExit
  | s, [] =>
    if s.running then (s, [], LoopExit.blocked)
    else (s, [], LoopExit.terminated)
  | s, ReadEvent.stop :: rest =>
    if s.running then readLoop cb { s with running := false } rest
    else (s, [], LoopExit.terminated)
  | s, ReadEvent.err :: _ =>
    if s.running then
      ({ s with running := false },
       Event.readErr :: listenerEvts Event.errListener s.onErrorListeners,
       LoopExit.terminated)
    else (s, [], LoopExit.terminated)
  | s, ReadEvent.ok data :: rest =>
    if s.running then
      if data.length < 1 then
        let r := readLoop cb s rest
        (r.1, Event.readOk data :: r.2.1, r.2.2)
      else if cb data then
        (s, [Event.readOk data, Event.dispatch data], LoopExit.terminated)
      else
        let r := readLoop cb s rest
        (r.1, Event.readOk data :: Event.dispatch data :: r.2.1, r.2.2)
    else (s, [], LoopExit.terminated)

/-- `readPackets` (part_000 lines 166–207): panic when no message-dispatch
callback is registered (before the deferred cleanup is installed and before
any read); otherwise run the read loop, and when — and only when — the loop
terminates, run the deferred cleanup: every close listener in registration
order, then `conn.Close()` once. -/
def readPackets (s : Session) (script : List ReadEvent) :
    Session × List Event × RPExit :=
  match s.onMessageListener with
  | none => (s, [], RPExit.panicked)
  | some cb =>
    let r := readLoop cb s script
    match r.2.2 with
    | LoopExit.blocked => (r.1, r.2.1, RPExit.blocked)
    | LoopExit.terminated =>
      (r.1,
       r.2.1 ++ listenerEvts Event.closeListener r.1.onCloseListeners
            ++ [Event.connClose],
       RPExit.terminated)

/-- The operations exposed on a session, for stating state invariants.
`start` is `Start()`'s direct effect on the session (`s.running = true`;
the reader and writer loops it spawns are modelled by `readPackets` and
`closed`). -/
inductive Op where
  | setStatus (status : Int)
  | closed
  | bind (uid : Int)
  | send (msg : List Nat)
  | start
  | readPackets (script : List ReadEvent)
  | onClose (listener : Option Nat)
  | onError (listener : Option Nat)
  | onMessage (listener : Option MsgListener)

/-- The session state reached by one operation (traces and return values
dropped). -/
def applyOp (s : Session) : Op → Session
  | Op.setStatus st => s.SetStatus st
  | Op.closed => (Session.Closed s).1
  | Op.bind uid => (s.Bind uid).1
  | Op.send msg => (s.Send msg).1
  | Op.start => { s with running := true }
  | Op.readPackets script => (readPackets s script).1
  | Op.onClose l => s.OnClose l
  | Op.onError l => s.OnError l
  | Op.onMessage l => s.OnMessage l

/-- Neither listener list ever holds a Go `nil` entry. -/
def noNilListeners (s : Session) : Bool :=
  s.onCloseListeners.all Option.isSome && s.onErrorListeners.all Option.isSome

/-- The dispatch-callback invocations of a trace, in order, with their
payloads. -/
def dispatches : List Event → List (List Nat)
  | [] => []
  | Event.dispatch d :: tr => d :: dispatches tr
  | _ :: tr => dispatches tr

/-- The successful reads of at least one byte of a trace, in order, with the
bytes read. -/
def nonEmptyReads : List Event → List (List Nat)
  | [] => []
  | Event.readOk d :: tr =>
    if d.length < 1 then nonEmptyReads tr else d :: nonEmptyReads tr
  | _ :: tr => nonEmptyReads tr

/-- Events emitted only by the deferred cleanup of `readPackets`. -/
def isCleanupEvt : Event → Bool
  | Event.closeListener _ => true
  | Event.connClose => true
  | _ => false

/-- Two's-complement wrap-around of an unbounded integer to `int64`
(Go's `atomic.AddInt64` overflows silently). -/
def wrap64 (n : Int) : Int := (n + 2 ^ 63) % 2 ^ 64 - 2 ^ 63

/-- `var nextSessionId int64` starts at zero
(`src/net/session/session.go` line 11). -/
def nextSessionId0 : Int := 0

/-- `NextSID()` (`src/net/session/session.go` lines 13–15):
`atomic.AddInt64(&nextSessionId, 1)` — add one with `int64` wrap-around and
return the new counter value.  First component: the new counter; second: the
returned SID (they coincide). -/
def NextSID (nextSessionId : Int) : Int × Int :=
  let v := wrap64 (nextSessionId + 1)
  (v, v)

/-- Counter value after `k` calls to `NextSID()` in one process; for
`k ≥ 1` this is also the identifier returned by the `k`-th call. -/
def counterAfter : Nat → Int
  | 0 => nextSessionId0
  | k + 1 => (NextSID (counterAfter k)).1

/-! ## Helper lemmas -/

theorem mem_listenerEvts {f : Nat → Event} {ls : List (Option Nat)} {e : Event}
    (he : e ∈ listenerEvts f ls) : ∃ id, e = f id := by
  unfold listenerEvts at he
  obtain ⟨o, -, ho⟩ := List.mem_filterMap.mp he
  cases o with
  | none => cases ho
  | some id => exact ⟨id, by cases ho; rfl⟩

theorem listenerEvts_all (p : Event → Bool) (f : Nat → Event)
    (hp : ∀ id, p (f id) = true) (ls : List (Option Nat)) :
    (listenerEvts f ls).all p = true := by
  rw [List.all_eq_true]
  intro e he
  obtain ⟨id, rfl⟩ := mem_listenerEvts he
  exact hp id

theorem dispatches_eq_nil (tr : List Event)
    (h : ∀ d, Event.dispatch d ∉ tr) : dispatches tr = [] := by
  induction tr with
  | nil => rfl
  | cons e tr ih =>
    have ht : ∀ d, Event.dispatch d ∉ tr :=
      fun d hd => h d (List.mem_cons_of_mem e hd)
    cases e with
    | dispatch d => exact absurd (List.mem_cons_self _ _) (h d)
    | readOk d =>
      simp only [nonEmptyReads, dispatches]
      exact ih ht
    | _ => exact (ih ht : _)
  
theorem nonEmptyReads_eq_nil (tr : List Event)
    (h : ∀ d, Event.readOk d ∉ tr) : nonEmptyReads tr = [] := by
  induction tr with
  | nil => rfl
  | cons e tr ih =>
    have ht : ∀ d, Event.readOk d ∉ tr :=
      fun d hd => h d (List.mem_cons_of_mem e hd)
    cases e with
    | readOk d => exact absurd (List.mem_cons_self _ _) (h d)
    | _ => exact (ih ht : _)

theorem dispatches_append (a b : List Event) :
    dispatches (a ++ b) = dispatches a ++ dispatches b := by
  induction a with
  | nil => rfl
  | cons e tr ih =>
    cases e <;> simp only [List.cons_append, dispatches, List.nil_append] <;>
      first
        | exact ih
        | exact congrArg _ ih

theorem nonEmptyReads_append (a b : List Event) :
    nonEmptyReads (a ++ b) = nonEmptyReads a ++ nonEmptyReads b := by
  induction a with
  | nil => rfl
  | cons e tr ih =>
    cases e <;> simp only [List.cons_append, nonEmptyReads] <;>
      first
        | exact ih
        | exact congrArg _ ih
        | (split <;> first | exact ih | exact congrArg _ ih)

/-- The read loop only ever touches the `running` flag: every other field of
the session is unchanged when it returns. -/
theorem readLoop_preserves (cb : MsgListener) (script : List ReadEvent) :
    ∀ s : Session,
      (readLoop cb s script).1.status = s.status ∧
      (readLoop cb s script).1.uid = s.uid ∧
      (readLoop cb s script).1.sid = s.sid ∧
      (readLoop cb s script).1.hasSessionComponent = s.hasSessionComponent ∧
      (readLoop cb s script).1.onCloseListeners = s.onCloseListeners ∧
      (readLoop cb s script).1.onErrorListeners = s.onErrorListeners ∧
      (readLoop cb s script).1.onMessageListener = s.onMessageListener := by
  induction script with
  | nil =>
    intro s
    cases hr : s.running <;> simp [readLoop, hr]
  | cons ev rest ih =>
    intro s
    cases ev with
    | stop =>
      cases hr : s.running
      · simp [readLoop, hr]
      · simpa [readLoop, hr] using ih { s with running := false }
    | err =>
      cases hr : s.running <;> simp [readLoop, hr]
    | ok data =>
      cases hr : s.running
      · simp [readLoop, hr]
      · by_cases hl : data.length < 1
        · simpa [readLoop, hr, hl] using ih s
        · by_cases hcb : cb data
          · simp [readLoop, hr, hl, hcb]
          · simpa [readLoop, hr, hl, hcb] using ih s

/-- The read loop's own trace never contains a cleanup event (close-listener
invocation or `conn.Close()`); those belong to the deferred cleanup alone. -/
theorem readLoop_no_cleanup (cb : MsgListener) (script : List ReadEvent) :
    ∀ s : Session,
      (readLoop cb s script).2.1.all (fun e => !isCleanupEvt e) = true := by
  induction script with
  | nil =>
    intro s
    cases hr : s.running <;> simp [readLoop, hr]
  | cons ev rest ih =>
    intro s
    cases ev with
    | stop =>
      cases hr : s.running
      · simp [readLoop, hr]
      · simpa [readLoop, hr] using ih { s with running := false }
    | err =>
      cases hr : s.running
      · simp [readLoop, hr]
      · have hx := listenerEvts_all (fun e => !isCleanupEvt e)
          Event.errListener (fun id => rfl) s.onErrorListeners
        simp only [readLoop, hr, if_true, List.all_cons, Bool.and_eq_true]
        exact ⟨rfl, hx⟩
    | ok data =>
      cases hr : s.running
      · simp [readLoop, hr]
      · by_cases hl : data.length < 1
        · simpa [readLoop, hr, hl, isCleanupEvt] using ih s
        · by_cases hcb : cb data
          · simp [readLoop, hr, hl, hcb, isCleanupEvt]
          · simpa [readLoop, hr, hl, hcb, isCleanupEvt] using ih s

/-- Inside the read loop, the dispatch invocations are exactly the successful
reads of at least one byte, with the same payloads in the same order. -/
theorem readLoop_dispatches (cb : MsgListener) (script : List ReadEvent) :
    ∀ s : Session,
      dispatches (readLoop cb s script).2.1
        = nonEmptyReads (readLoop cb s script).2.1 := by
  induction script with
  | nil =>
    intro s
    cases hr : s.running <;> simp [readLoop, hr, dispatches, nonEmptyReads]
  | cons ev rest ih =>
    intro s
    cases ev with
    | stop =>
      cases hr : s.running
      · simp [readLoop, hr, dispatches, nonEmptyReads]
      · simpa [readLoop, hr] using ih { s with running := false }
    | err =>
      cases hr : s.running
      · simp [readLoop, hr, dispatches, nonEmptyReads]
      · have h1 : dispatches (listenerEvts Event.errListener s.onErrorListeners) = [] :=
          dispatches_eq_nil _ (fun d hd => by
            obtain ⟨id, hid⟩ := mem_listenerEvts hd
            cases hid)
        have h2 : nonEmptyReads (listenerEvts Event.errListener s.onErrorListeners) = [] :=
          nonEmptyReads_eq_nil _ (fun d hd => by
            obtain ⟨id, hid⟩ := mem_listenerEvts hd
            cases hid)
        simp [readLoop, hr, dispatches, nonEmptyReads, h1, h2]
    | ok data =>
      cases hr : s.running
      · simp [readLoop, hr, dispatches, nonEmptyReads]
      · by_cases hl : data.length < 1
        · have := ih s
          simp only [readLoop, hr, if_true, hl, dispatches, nonEmptyReads,
            if_pos hl]
          exact this
        · by_cases hcb : cb data
          · simp [readLoop, hr, hl, hcb, dispatches, nonEmptyReads]
          · have := ih s
            simp only [readLoop, hr, if_true, hl, if_false, hcb, dispatches,
              nonEmptyReads, if_neg hl]
            exact congrArg (data :: ·) this

/-- `readPackets` only ever touches the `running` flag of the session. -/
theorem readPackets_state (s : Session) (script : List ReadEvent) :
    (readPackets s script).1.status = s.status ∧
    (readPackets s script).1.uid = s.uid ∧
    (readPackets s script).1.sid = s.sid ∧
    (readPackets s script).1.hasSessionComponent = s.hasSessionComponent ∧
    (readPackets s script).1.onCloseListeners = s.onCloseListeners ∧
    (readPackets s script).1.onErrorListeners = s.onErrorListeners ∧
    (readPackets s script).1.onMessageListener = s.onMessageListener := by
  cases hm : s.onMessageListener with
  | none => simp [readPackets, hm]
  | some cb =>
    cases hx : (readLoop cb s script).2.2 with
    | blocked =>
      simpa [readPackets, hm, hx] using readLoop_preserves cb script s
    | terminated =>
      simpa [readPackets, hm, hx] using readLoop_preserves cb script s

/-- Repeated `Closed()` is idempotent on the session state: any positive
number of invocations leaves the same state as one. -/
theorem closedN_state (n : Nat) : ∀ s : Session, 1 ≤ n →
    (closedN s n).1 = (Session.Closed s).1 := by
  induction n with
  | zero => intro s h; omega
  | succ n ih =>
    intro s _
    cases Nat.eq_zero_or_pos n with
    | inl h0 => subst h0; rfl
    | inr hpos =>
      calc (closedN s (n + 1)).1
          = (closedN (Session.Closed s).1 n).1 := rfl
        _ = (Session.Closed (Session.Closed s).1).1 := ih (Session.Closed s).1 hpos
        _ = (Session.Closed s).1 := rfl

/-- Each `Closed()` invocation makes its own `Remove` call (when the session
has a registry component). -/
theorem closedN_count (n : Nat) : ∀ s : Session,
    (closedN s n).2.count (Event.remove s.sid)
      = if s.hasSessionComponent then n else 0 := by
  induction n with
  | zero =>
    intro s
    cases hc : s.hasSessionComponent <;> simp [closedN]
  | succ n ih =>
    intro s
    have h2 := ih (Session.Closed s).1
    have hcc : (Session.Closed s).1.hasSessionComponent = s.hasSessionComponent := rfl
    have hsid : (Session.Closed s).1.sid = s.sid := rfl
    rw [hcc, hsid] at h2
    cases hc : s.hasSessionComponent with
    | false =>
      have hsh : (closedN s (n + 1)).2
          = (closedN (Session.Closed s).1 n).2 := by
        simp [closedN, Session.Closed, hc]
      rw [hsh, h2]
      simp [hc]
    | true =>
      have hsh : (closedN s (n + 1)).2
          = Event.remove s.sid :: (closedN (Session.Closed s).1 n).2 := by
        simp [closedN, Session.Closed, hc]
      rw [hsh]
      have hcnt : (Event.remove s.sid
            :: (closedN (Session.Closed s).1 n).2).count (Event.remove s.sid)
          = (closedN (Session.Closed s).1 n).2.count (Event.remove s.sid) + 1 := by
        simp [List.count_cons]
      rw [hcnt, h2]
      simp [hc]

/-- `Closed()` never invokes a close listener, no matter how often it is
called. -/
theorem closedN_no_close_listener (n : Nat) : ∀ (s : Session) (i : Nat),
    Event.closeListener i ∉ (closedN s n).2 := by
  induction n with
  | zero =>
    intro s i h
    simp [closedN] at h
  | succ n ih =>
    intro s i h
    have hsh : (closedN s (n + 1)).2
        = (Session.Closed s).2 ++ (closedN (Session.Closed s).1 n).2 := rfl
    rw [hsh] at h
    rcases List.mem_append.mp h with h1 | h2
    · cases hc : s.hasSessionComponent <;>
        simp [Session.Closed, hc] at h1
    · exact ih (Session.Closed s).1 i h2

theorem wrap64_add_one (x : Int) : wrap64 (wrap64 x + 1) = wrap64 (x + 1) := by
  unfold wrap64
  have h63 : (2 : Int) ^ 63 = 9223372036854775808 := by norm_num
  have h64 : (2 : Int) ^ 64 = 18446744073709551616 := by norm_num
  rw [h63, h64]
  omega

theorem wrap64_of_lt (x : Int) (h0 : 0 ≤ x) (h : x < 2 ^ 63) : wrap64 x = x := by
  unfold wrap64
  have h63 : (2 : Int) ^ 63 = 9223372036854775808 := by norm_num
  have h64 : (2 : Int) ^ 64 = 18446744073709551616 := by norm_num
  rw [h63, h64]
  rw [h63] at h
  omega

/-- Closed form of the id counter: after `k` calls it holds `k` wrapped to
`int64`. -/
theorem counterAfter_eq (k : Nat) : counterAfter k = wrap64 k := by
  induction k with
  | zero =>
    show nextSessionId0 = wrap64 0
    unfold nextSessionId0 wrap64
    norm_num
  | succ k ih =>
    show (NextSID (counterAfter k)).1 = wrap64 (k + 1 : Nat)
    simp only [NextSID, ih]
    push_cast
    exact wrap64_add_one k

/-! ## Concrete sessions used in witnesses and counterexamples -/

/-- A message-dispatch callback that always returns a nil error. -/
def okListener : MsgListener := fun _ => false

/-- A running session with a registered dispatch callback. -/
def runningSession : Session :=
  { NewSession 7 true 0 with
      running := true
      status := Working
      onMessageListener := some okListener }

/-- A freshly created session that was never started. -/
def stoppedSession : Session := NewSession 4 true 0

/-- A session whose status has reached `Closed`. -/
def closedSession : Session :=
  { NewSession 3 true 0 with status := Closed }

/-! ## Claims -/

/-- C1 (counterexample): invoking `Closed()` twice on a session with a
registry component makes two `Remove` calls, not one, contradicting the
idempotence the claim states. -/
theorem closed_twice_calls_remove_twice :
    (closedN (NewSession 9 true 5) 2).2.count (Event.remove 9) = 2 ∧
    ¬ (closedN (NewSession 9 true 5) 2).2.count (Event.remove 9) = 1 := by
  decide

/-- C1 (amended): invoking `Closed()` `n ≥ 1` times leaves the same session
state as invoking it once, makes one `Remove` call per invocation (`n` in
total when the session has a registry component, none otherwise) rather than
exactly one, and never runs a close listener (close listeners run only in
`readPackets`' deferred cleanup). -/
theorem closedN_remove_per_invocation (s : Session) (n : Nat) (h : 1 ≤ n) :
    (closedN s n).1 = (closedN s 1).1 ∧
    ((closedN s n).2.count (Event.remove s.sid)
        = if s.hasSessionComponent then n else 0) ∧
    ∀ i, Event.closeListener i ∉ (closedN s n).2 := by
  refine ⟨?_, closedN_count n s, fun i => closedN_no_close_listener n s i⟩
  rw [closedN_state n s h]
  rfl

/-- C1 witness: the amended claim at a concrete session, closed twice. -/
theorem closedN_remove_per_invocation_witness :
    1 ≤ 2 ∧
    ((closedN (NewSession 9 true 5) 2).1 = (closedN (NewSession 9 true 5) 1).1 ∧
     ((closedN (NewSession 9 true 5) 2).2.count
          (Event.remove (NewSession 9 true 5).sid)
        = if (NewSession 9 true 5).hasSessionComponent then 2 else 0) ∧
     ∀ i, Event.closeListener i ∉ (closedN (NewSession 9 true 5) 2).2) :=
  ⟨by decide, closedN_remove_per_invocation (NewSession 9 true 5) 2 (by decide)⟩

/-- C2 (counterexample): `SetStatus` is an unconditional setter, so a session
whose status is `Closed` can be moved back out of `Closed`. -/
theorem setStatus_escapes_closed :
    closedSession.status = Closed ∧
    (applyOp closedSession (Op.setStatus Init)).status ≠ Closed := by
  decide

/-- C2 (amended): once `status = Closed`, every exposed operation except
`SetStatus` (`Closed`, `Bind`, `Send`, `Start`, `readPackets`, listener
registration) leaves the status at `Closed`; only the raw setter `SetStatus`
can move it out. -/
theorem status_closed_stable_without_setStatus (s : Session) (op : Op)
    (h : s.status = Closed) (hop : ∀ st, op ≠ Op.setStatus st) :
    (applyOp s op).status = Closed := by
  cases op with
  | setStatus st => exact absurd rfl (hop st)
  | closed => rfl
  | bind uid =>
    show ((s.Bind uid).1).status = Closed
    unfold Session.Bind
    split
    · exact h
    · exact h
  | send msg =>
    show ((s.Send msg).1).status = Closed
    unfold Session.Send
    split
    · exact h
    · exact h
  | start => exact h
  | readPackets script =>
    show (readPackets s script).1.status = Closed
    rw [(readPackets_state s script).1]
    exact h
  | onClose l => cases l <;> exact h
  | onError l => cases l <;> exact h
  | onMessage l => cases l <;> exact h

/-- C2 witness: a closed session stays closed under `Bind`. -/
theorem status_closed_stable_without_setStatus_witness :
    closedSession.status = Closed ∧
    (applyOp closedSession (Op.bind 5)).status = Closed :=
  ⟨rfl, status_closed_stable_without_setStatus closedSession (Op.bind 5) rfl
      (fun _ hst => Op.noConfusion hst)⟩

/-- C3: `Send` on a session whose `running` flag is false returns a nil
error, emits no event (no enqueue onto `sendChan`, no connection write) and
leaves the session state unchanged. -/
theorem send_not_running_noop (s : Session) (msg : List Nat)
    (h : s.running = false) :
    s.Send msg = (s, none, []) := by
  simp [Session.Send, h]

/-- C3 witness: `Send` on a never-started session. -/
theorem send_not_running_noop_witness :
    stoppedSession.running = false ∧
    stoppedSession.Send [1, 2, 3] = (stoppedSession, none, []) :=
  ⟨rfl, send_not_running_noop stoppedSession [1, 2, 3] rfl⟩

/-- C4: for `uid < 1`, `Bind` returns the `IllegalUID` error and returns the
session completely unchanged. -/
theorem bind_illegal_uid (s : Session) (uid : Int) (h : uid < 1) :
    s.Bind uid = (s, some IllegalUID) := by
  simp [Session.Bind, h]

/-- C4 witness: binding uid 0. -/
theorem bind_illegal_uid_witness :
    (0 : Int) < 1 ∧ stoppedSession.Bind 0 = (stoppedSession, some IllegalUID) :=
  ⟨by decide, bind_illegal_uid stoppedSession 0 (by decide)⟩

/-- C5: for `uid ≥ 1`, after `Bind(uid)` the accessor `UID()` returns that
uid and `IsBind()` returns true. -/
theorem bind_uid_isBind (s : Session) (uid : Int) (h : 1 ≤ uid) :
    ((s.Bind uid).1).UID = uid ∧ ((s.Bind uid).1).IsBind = true := by
  have hlt : ¬ uid < 1 := not_lt.mpr h
  unfold Session.Bind
  rw [if_neg hlt]
  refine ⟨rfl, ?_⟩
  show decide (0 < uid) = true
  simp only [decide_eq_true_eq]
  omega

/-- C5 witness: binding uid 42. -/
theorem bind_uid_isBind_witness :
    (1 : Int) ≤ 42 ∧
    ((stoppedSession.Bind 42).1).UID = 42 ∧
    ((stoppedSession.Bind 42).1).IsBind = true :=
  ⟨by decide, bind_uid_isBind stoppedSession 42 (by decide)⟩

/-- C6: in any run of `readPackets`, the dispatch-callback invocations are
exactly the successful reads of at least one byte — one invocation per such
read, with exactly the bytes read, in order; zero-byte reads produce no
invocation. -/
theorem dispatch_once_per_nonempty_read (s : Session)
    (script : List ReadEvent) :
    dispatches (readPackets s script).2.1
      = nonEmptyReads (readPackets s script).2.1 := by
  cases hm : s.onMessageListener with
  | none => simp [readPackets, hm, dispatches, nonEmptyReads]
  | some cb =>
    cases hx : (readLoop cb s script).2.2 with
    | blocked =>
      simpa [readPackets, hm, hx] using readLoop_dispatches cb script s
    | terminated =>
      have hd : dispatches (listenerEvts Event.closeListener
          (readLoop cb s script).1.onCloseListeners) = [] :=
        dispatches_eq_nil _ (fun d hd => by
          obtain ⟨id, hid⟩ := mem_listenerEvts hd
          cases hid)
      have hn : nonEmptyReads (listenerEvts Event.closeListener
          (readLoop cb s script).1.onCloseListeners) = [] :=
        nonEmptyReads_eq_nil _ (fun d hd => by
          obtain ⟨id, hid⟩ := mem_listenerEvts hd
          cases hid)
      have hl := readLoop_dispatches cb script s
      simp [readPackets, hm, hx, dispatches_append, nonEmptyReads_append,
        hd, hn, dispatches, nonEmptyReads, hl]

/-- C7: whenever the reader loop terminates, the trace ends with the
guaranteed cleanup — every close listener in registration order followed by
exactly one `conn.Close()` — and nothing before it is a close-listener
invocation or a connection close; in particular every error-listener
invocation (read-error path) happens strictly before the close listeners. -/
theorem readPackets_cleanup_order (s : Session) (script : List ReadEvent)
    (h : (readPackets s script).2.2 = RPExit.terminated) :
    ∃ pre,
      (readPackets s script).2.1
          = pre ++ listenerEvts Event.closeListener s.onCloseListeners
                ++ [Event.connClose] ∧
      (∀ i, Event.closeListener i ∉ pre) ∧
      Event.connClose ∉ pre ∧
      (readPackets s script).2.1.count Event.connClose = 1 ∧
      (∀ i, Event.errListener i ∈ (readPackets s script).2.1 →
          Event.errListener i ∈ pre) := by
  cases hm : s.onMessageListener with
  | none => simp [readPackets, hm] at h
  | some cb =>
    cases hx : (readLoop cb s script).2.2 with
    | blocked => simp [readPackets, hm, hx] at h
    | terminated =>
      have hcl : (readLoop cb s script).1.onCloseListeners
          = s.onCloseListeners := (readLoop_preserves cb script s).2.2.2.2.1
      have htr : (readPackets s script).2.1
          = (readLoop cb s script).2.1
            ++ listenerEvts Event.closeListener s.onCloseListeners
            ++ [Event.connClose] := by
        simp [readPackets, hm, hx, hcl]
      have hnc : ∀ e ∈ (readLoop cb s script).2.1, isCleanupEvt e = false := by
        intro e he
        have := List.all_eq_true.mp (readLoop_no_cleanup cb script s) e he
        simpa using this
      refine ⟨(readLoop cb s script).2.1, htr, ?_, ?_, ?_, ?_⟩
      · intro i hi
        have := hnc _ hi
        simp [isCleanupEvt] at this
      · intro hi
        have := hnc _ hi
        simp [isCleanupEvt] at this
      · rw [htr, List.count_append, List.count_append]
        have c1 : (readLoop cb s script).2.1.count Event.connClose = 0 :=
          List.count_eq_zero.mpr (fun hi => by
            have := hnc _ hi
            simp [isCleanupEvt] at this)
        have c2 : (listenerEvts Event.closeListener
            s.onCloseListeners).count Event.connClose = 0 :=
          List.count_eq_zero.mpr (fun hi => by
            obtain ⟨id, hid⟩ := mem_listenerEvts hi
            cases hid)
        simp [c1, c2]
      · intro i hi
        rw [htr] at hi
        rcases List.mem_append.mp hi with hi1 | hi1
        · rcases List.mem_append.mp hi1 with h1 | h1
          · exact h1
          · obtain ⟨id, hid⟩ := mem_listenerEvts h1
            cases hid
        · simp at hi1

/-- C7 witness: a running session hit by a read error terminates and shows
the cleanup ordering. -/
theorem readPackets_cleanup_order_witness :
    (readPackets runningSession [ReadEvent.err]).2.2 = RPExit.terminated ∧
    (∃ pre,
      (readPackets runningSession [ReadEvent.err]).2.1
          = pre ++ listenerEvts Event.closeListener
                runningSession.onCloseListeners
                ++ [Event.connClose] ∧
      (∀ i, Event.closeListener i ∉ pre) ∧
      Event.connClose ∉ pre ∧
      (readPackets runningSession [ReadEvent.err]).2.1.count
          Event.connClose = 1 ∧
      (∀ i, Event.errListener i
            ∈ (readPackets runningSession [ReadEvent.err]).2.1 →
          Event.errListener i ∈ pre)) :=
  ⟨rfl, readPackets_cleanup_order runningSession [ReadEvent.err] rfl⟩

/-- C8: `readPackets` on a session with no registered message-dispatch
callback panics before performing any read (empty trace); with a callback
registered the panic branch is unreachable. -/
theorem readPackets_panics_without_listener (s : Session)
    (script : List ReadEvent) :
    (s.onMessageListener = none →
        (readPackets s script).2.2 = RPExit.panicked ∧
        (readPackets s script).2.1 = []) ∧
    (s.onMessageListener ≠ none →
        (readPackets s script).2.2 ≠ RPExit.panicked) := by
  constructor
  · intro hm
    simp [readPackets, hm]
  · intro hm
    cases hmm : s.onMessageListener with
    | none => exact absurd hmm hm
    | some cb =>
      cases hx : (readLoop cb s script).2.2 with
      | blocked => simp [readPackets, hmm, hx]
      | terminated => simp [readPackets, hmm, hx]

/-- C8 witness: a fresh session (no callback) panics with an empty trace; a
session with a callback does not panic. -/
theorem readPackets_panics_without_listener_witness :
    ((readPackets (NewSession 1 true 0) [ReadEvent.err]).2.2
        = RPExit.panicked ∧
      (readPackets (NewSession 1 true 0) [ReadEvent.err]).2.1 = []) ∧
    (readPackets runningSession [ReadEvent.err]).2.2 ≠ RPExit.panicked :=
  ⟨(readPackets_panics_without_listener (NewSession 1 true 0)
      [ReadEvent.err]).1 rfl,
   (readPackets_panics_without_listener runningSession [ReadEvent.err]).2
      (fun hc => Option.noConfusion hc)⟩

/-- C9 (counterexample): the `int64` counter behind `NextSID()` wraps: the
call number `2^63` returns an identifier smaller than the one returned by
the first call, and call number `2^64 + 1` repeats the first identifier. -/
theorem nextSID_wraps :
    counterAfter (2 ^ 63) < counterAfter 1 ∧
    counterAfter (2 ^ 64 + 1) = counterAfter 1 := by
  simp only [counterAfter_eq]
  unfold wrap64
  have h1 : ((2 ^ 63 : Nat) : Int) = 9223372036854775808 := by norm_num
  have h2 : ((2 ^ 64 + 1 : Nat) : Int) = 18446744073709551617 := by norm_num
  have h63 : (2 : Int) ^ 63 = 9223372036854775808 := by norm_num
  have h64 : (2 : Int) ^ 64 = 18446744073709551616 := by norm_num
  rw [h1, h2, h63, h64]
  norm_num

/-- C9 (amended): identifiers are strictly increasing across the first
`2^63 − 1` calls (call `i` returns `i` there); the unbounded monotonicity
the claim states fails once the `int64` counter overflows. -/
theorem nextSID_strictly_increasing_before_wrap (i j : Nat)
    (h1 : 1 ≤ i) (h2 : i < j) (h3 : j < 2 ^ 63) :
    counterAfter i < counterAfter j := by
  rw [counterAfter_eq, counterAfter_eq]
  have hi : ((i : Int)) < 2 ^ 63 := by
    have : (j : Int) < ((2 ^ 63 : Nat) : Int) := by exact_mod_cast h3
    push_cast at this
    omega
  have hj : ((j : Int)) < 2 ^ 63 := by
    have : (j : Int) < ((2 ^ 63 : Nat) : Int) := by exact_mod_cast h3
    push_cast at this
    omega
  rw [wrap64_of_lt _ (Int.natCast_nonneg i) hi,
      wrap64_of_lt _ (Int.natCast_nonneg j) hj]
  exact_mod_cast h2

/-- C9 witness: the second call returns a larger identifier than the
first. -/
theorem nextSID_strictly_increasing_before_wrap_witness :
    1 ≤ 1 ∧ 1 < 2 ∧ 2 < 2 ^ 63 ∧ counterAfter 1 < counterAfter 2 :=
  ⟨by decide, by decide, by norm_num,
   nextSID_strictly_increasing_before_wrap 1 2 (by decide) (by decide)
      (by norm_num)⟩

/-- C10: registering a nil listener via `OnClose`, `OnError` or `OnMessage`
leaves the session unchanged; `NewSession` starts with nil-free listener
lists, and every exposed operation preserves that invariant. -/
theorem nil_listener_noop_and_no_nil (s : Session) (op : Op)
    (sid now : Int) (comp : Bool)
    (h : noNilListeners s = true) :
    s.OnClose none = s ∧ s.OnError none = s ∧ s.OnMessage none = s ∧
    noNilListeners (NewSession sid comp now) = true ∧
    noNilListeners (applyOp s op) = true := by
  refine ⟨rfl, rfl, rfl, rfl, ?_⟩
  cases op with
  | setStatus st => exact h
  | closed => exact h
  | bind uid =>
    show noNilListeners (s.Bind uid).1 = true
    unfold Session.Bind
    split
    · exact h
    · exact h
  | send msg =>
    show noNilListeners (s.Send msg).1 = true
    unfold Session.Send
    split
    · exact h
    · exact h
  | start => exact h
  | readPackets script =>
    show noNilListeners (readPackets s script).1 = true
    have h5 := (readPackets_state s script).2.2.2.2.1
    have h6 := (readPackets_state s script).2.2.2.2.2.1
    unfold noNilListeners at h ⊢
    rw [h5, h6]
    exact h
  | onClose l =>
    cases l with
    | none => exact h
    | some id =>
      show noNilListeners
          { s with onCloseListeners := s.onCloseListeners ++ [some id] } = true
      unfold noNilListeners at h ⊢
      simp only [List.all_append, Bool.and_eq_true] at h ⊢
      exact ⟨⟨h.1, rfl⟩, h.2⟩
  | onError l =>
    cases l with
    | none => exact h
    | some id =>
      show noNilListeners
          { s with onErrorListeners := s.onErrorListeners ++ [some id] } = true
      unfold noNilListeners at h ⊢
      simp only [List.all_append, Bool.and_eq_true] at h ⊢
      exact ⟨h.1, h.2, rfl⟩
  | onMessage l =>
    cases l with
    | none => exact h
    | some f => exact h

/-- C10 witness: the invariant holds for a concrete session and is kept when
a fresh (non-nil) close listener is registered. -/
theorem nil_listener_noop_and_no_nil_witness :
    noNilListeners runningSession = true ∧
    noNilListeners (applyOp runningSession (Op.onClose (some 5))) = true :=
  ⟨by decide,
   (nil_listener_noop_and_no_nil runningSession (Op.onClose (some 5)) 1 0 true
      (by decide)).2.2.2.2⟩

end cherrySession
